import Mathlib

/-!
Shallow embedding of the Grubbs outlier-rejection filter implemented in
`src/node_glbs.c` / `src/node_glbs.h` (with a near-duplicate copy of the same
algorithm in a second source file).

Modelling conventions:
* C `float` values are embedded as exact rationals `ℚ`; the algorithm's
  arithmetic (sums, means, Bessel-corrected variance, comparisons) is carried
  out exactly.
* The C comparison `gpi > gpn_data[mode][left_num-1]` with
  `gpi = |value - average| / sqrt(variance)` is embedded in squared form:
  `crit^2 * variance < (value - average)^2`.  For `variance > 0` and
  `crit ≥ 0` the two are equivalent; for `variance = 0` every valid value
  equals the average (exact arithmetic), so the squared test gives
  `0 < 0 = False`, matching the C code where `0.0/0.0` is NaN and
  `NaN > crit` is false.
* The out-parameter `*result` together with the `bool` return value is
  embedded as `Option ℚ`: `none` models `return false` (the result location
  is never written), `some r` models `*result = r; return true`.
* The `while(1)` rejection loop is embedded as a fuel-indexed recursion; fuel
  `left_num s` is proved sufficient below (each iteration that continues
  invalidates exactly one entry, so at most `left_num - 2` iterations recurse).
-/

/-- The confidence-level selector `gpn_mode_t` from `node_glbs.h`. -/
inductive gpn_mode : Type
  | GPN_99
  | GPN_95
  | GPN_90
  | GPN_80
  deriving DecidableEq, Repr

open gpn_mode

/-- `MIN_SAMPLE_NUM` from `node_glbs.h`. -/
def MIN_SAMPLE_NUM : ℕ := 3

/-- `MAX_SAMPLE_NUM` from `node_glbs.h`. -/
def MAX_SAMPLE_NUM : ℕ := 20

/-- The critical-value table `gpn_data` from `node_glbs.c`, one row of 20
entries per confidence level; the lookup in the code is
`gpn_data[s_gpn_mode][left_num - 1]`. -/
def gpn_data : gpn_mode → List ℚ
  | GPN_99 => [1.155, 1.155, 1.155, 1.492, 1.749, 1.944, 2.097, 2.220, 2.323,
               2.410, 2.485, 2.550, 2.607, 2.659, 2.705, 2.747, 2.785, 2.821,
               2.954, 2.884]
  | GPN_95 => [1.153, 1.153, 1.153, 1.463, 1.672, 1.822, 1.938, 2.032, 2.110,
               2.176, 2.234, 2.285, 2.331, 2.371, 2.409, 2.443, 2.475, 2.501,
               2.532, 2.557]
  | GPN_90 => [1.148, 1.148, 1.148, 1.425, 1.602, 1.729, 1.828, 1.909, 1.977,
               2.036, 2.088, 2.134, 2.175, 2.213, 2.247, 2.279, 2.309, 2.335,
               2.361, 2.385]
  | GPN_80 => [1.148, 1.148, 1.148, 1.156, 1.252, 1.329, 1.428, 1.509, 1.577,
               1.636, 1.688, 1.734, 1.775, 1.813, 1.847, 1.879, 1.909, 1.935,
               1.961, 1.985]

/-- The table lookup `gpn_data[mode][n - 1]` used with `n = left_num`. -/
def gpn_crit (mode : gpn_mode) (n : ℕ) : ℚ := (gpn_data mode).getD (n - 1) 0

/-- The working entry `glbs_data_t` from `node_glbs.c`: a sample value paired
with its validity flag. -/
structure glbs_data_t : Type where
  value : ℚ
  valid : Bool
  deriving DecidableEq, Repr

/-- The values of the currently-valid working entries, in index order.  The C
loops `for i ...: if (glbs_data[i].valid) ...` accumulate exactly over this
list. -/
def valid_values (l : List glbs_data_t) : List ℚ :=
  (l.filter fun e => e.valid).map fun e => e.value

/-- The running count `left_num` of valid entries computed by the C
accumulation loops. -/
def left_num (l : List glbs_data_t) : ℕ := (valid_values l).length

/-- The running `sum` of valid entries computed by the C accumulation loops. -/
def sum_valid (l : List glbs_data_t) : ℚ := (valid_values l).sum

/-- The sum `Σ (value - average)^2` over valid entries (second accumulation
loop of the C rejection pass). -/
def sq_dev_sum (l : List glbs_data_t) (avgv : ℚ) : ℚ :=
  ((valid_values l).map fun v => (v - avgv) * (v - avgv)).sum

/-- The per-entry Grubbs test `gpi > crit` with
`gpi = |value - average| / sqrt(variance)`, embedded in squared form (see the
file header for the equivalence, including the `variance = 0` NaN case). -/
def g_exceeds (crit avgv varv v : ℚ) : Prop :=
  crit * crit * varv < (v - avgv) * (v - avgv)

instance (crit avgv varv v : ℚ) : Decidable (g_exceeds crit avgv varv v) :=
  inferInstanceAs (Decidable (_ < _))

/-- The inner rejection scan of `glbs_process` (step 3 in the C code): walk
the working array in index order and invalidate the first valid entry whose
Grubbs statistic exceeds the critical value; `none` means the scan completed
without finding an outlier (the `i == num` exit in the C code). -/
def mark_first_outlier (crit avgv varv : ℚ) :
    List glbs_data_t → Option (List glbs_data_t)
  | [] => none
  | e :: rest =>
    if e.valid = true ∧ g_exceeds crit avgv varv e.value then
      some (⟨e.value, false⟩ :: rest)
    else
      (mark_first_outlier crit avgv varv rest).map fun t => e :: t

/-- One rejection pass of the `while(1)` loop body after the `left_num`
check: compute `average = sum / left_num`, the Bessel-corrected variance
`sq_dev_sum / (left_num - 1)`, and scan for the first outlier. -/
def glbs_scan (mode : gpn_mode) (s : List glbs_data_t) :
    Option (List glbs_data_t) :=
  mark_first_outlier (gpn_crit mode (left_num s))
    (sum_valid s / (left_num s : ℚ))
    (sq_dev_sum s (sum_valid s / (left_num s : ℚ)) / ((left_num s : ℚ) - 1)) s

/-- Fuel-indexed embedding of the `while(1)` rejection loop of
`glbs_process`: stop when `left_num < MIN_SAMPLE_NUM` or when a scan finds no
outlier; otherwise continue with the entry invalidated. -/
def glbs_iter (mode : gpn_mode) : ℕ → List glbs_data_t → List glbs_data_t
  | 0, s => s
  | fuel + 1, s =>
    if left_num s < MIN_SAMPLE_NUM then s
    else
      match glbs_scan mode s with
      | none => s
      | some s2 => glbs_iter mode fuel s2

/-- The rejection loop of `glbs_process`, run with fuel `left_num s`, which is
proved sufficient below (`glbs_iter_fixpoint`). -/
def reject_loop (mode : gpn_mode) (s : List glbs_data_t) : List glbs_data_t :=
  glbs_iter mode (left_num s) s

/-- One stage of the C bubble sort's inner loop
(`for j = 0; j < i; j++`: compare-and-swap adjacent values), performing `k`
adjacent comparisons from the head of the list. -/
def bubble_stage : ℕ → List ℚ → List ℚ
  | 0, l => l
  | _ + 1, [] => []
  | _ + 1, [a] => [a]
  | k + 1, a :: b :: rest =>
    if b < a then b :: bubble_stage k (a :: rest)
    else a :: bubble_stage k (b :: rest)

/-- Recomputation of a single full bubble stage as "push the running maximum
through the list": `bubble_up a rest` returns the elements left behind (in
order) and the maximum that ends up in the last position.  Used to reason
about `bubble_stage` at full length. -/
def bubble_up : ℚ → List ℚ → List ℚ × ℚ
  | a, [] => ([], a)
  | a, b :: rest =>
    if b < a then (b :: (bubble_up a rest).1, (bubble_up a rest).2)
    else (a :: (bubble_up b rest).1, (bubble_up b rest).2)

/-- The C bubble sort's outer loop (`for i = num - 1; i > 0; i--`), running
stages with bounds `i, i-1, ..., 1`. -/
def bubble_outer : ℕ → List ℚ → List ℚ
  | 0, l => l
  | i + 1, l => bubble_outer i (bubble_stage (i + 1) l)

/-- The ascending bubble sort over the sample values performed by
`glbs_process` before the rejection loop. -/
def bubble_sort (l : List ℚ) : List ℚ := bubble_outer (l.length - 1) l

/-- The working state built by `glbs_process`: the sorted values, all marked
valid.  (The C code copies first and then sorts the values in place with every
entry valid; sorting values of all-valid entries is the same as mapping the
sorted values.) -/
def glbs_init_state (samples : List ℚ) : List glbs_data_t :=
  (bubble_sort samples).map fun v => ⟨v, true⟩

/-- The working state at the finalization step of `glbs_process` (after the
rejection loop), for a valid-length input. -/
def glbs_final_state (samples : List ℚ) (mode : gpn_mode) :
    List glbs_data_t :=
  reject_loop mode (glbs_init_state samples)

/-- The embedding of `glbs_process` from `node_glbs.c`: length validation,
sort, rejection loop, finalization.  `none` models `return false` (the result
location is not written); `some r` models `*result = r; return true`. -/
def glbs_process (samples : List ℚ) (mode : gpn_mode) : Option ℚ :=
  if samples.length < MIN_SAMPLE_NUM ∨ MAX_SAMPLE_NUM < samples.length then
    none
  else
    let fin := glbs_final_state samples mode
    some (if 0 < left_num fin then sum_valid fin / (left_num fin : ℚ) else 0)

/-- The values that survive the rejection loop of `glbs_process`. -/
def glbs_survivors (samples : List ℚ) (mode : gpn_mode) : List ℚ :=
  valid_values (glbs_final_state samples mode)

/-- The number of entries the rejection loop of `glbs_process` invalidates. -/
def rejected_count (samples : List ℚ) (mode : gpn_mode) : ℕ :=
  samples.length - left_num (glbs_final_state samples mode)

/-- The concrete test vector from the spec (and the commented-out demo `main`
in the duplicate source copy): `{8.2, 5.4, 5.0, 5.2, 15.1, 5.3, 5.5, 6.0}`. -/
def c5_input : List ℚ := [8.2, 5.4, 5.0, 5.2, 15.1, 5.3, 5.5, 6.0]

/-- A concrete working state with two valid entries (below
`MIN_SAMPLE_NUM`), used to exercise the loop's early stop. -/
def ex_state2 : List glbs_data_t := [⟨0, true⟩, ⟨100, true⟩]

/-- A concrete working state with exactly `MIN_SAMPLE_NUM` valid entries. -/
def ex_state3 : List glbs_data_t := [⟨0, true⟩, ⟨0, true⟩, ⟨0, true⟩]

/-- A concrete working state on which one rejection pass fires: three values
at `0` and one far outlier at `100`, all initially valid. -/
def scan_ex_pre : List glbs_data_t :=
  [⟨0, true⟩, ⟨0, true⟩, ⟨0, true⟩, ⟨100, true⟩]

/-- The state `scan_ex_pre` after its rejection pass invalidates the
outlier. -/
def scan_ex_post : List glbs_data_t :=
  [⟨0, true⟩, ⟨0, true⟩, ⟨0, true⟩, ⟨100, false⟩]

/-! ### Bubble sort: permutation and sortedness -/

theorem bubble_stage_perm : ∀ (k : ℕ) (l : List ℚ), List.Perm (bubble_stage k l) l := by
  intro k
  induction k with
  | zero => intro l; simp [bubble_stage]
  | succ k ih =>
    intro l
    match l with
    | [] => simp [bubble_stage]
    | [a] => simp [bubble_stage]
    | a :: b :: rest =>
      rw [bubble_stage]
      split
      · exact ((ih (a :: rest)).cons b).trans (List.Perm.swap a b rest)
      · exact (ih (b :: rest)).cons a

theorem bubble_outer_perm : ∀ (i : ℕ) (l : List ℚ), List.Perm (bubble_outer i l) l := by
  intro i
  induction i with
  | zero => intro l; simp [bubble_outer]
  | succ i ih =>
    intro l
    exact (ih _).trans (bubble_stage_perm _ l)

theorem bubble_sort_perm (l : List ℚ) : List.Perm (bubble_sort l) l :=
  bubble_outer_perm _ l

theorem bubble_up_fst_length : ∀ (rest : List ℚ) (a : ℚ),
    (bubble_up a rest).1.length = rest.length := by
  intro rest
  induction rest with
  | nil => intro a; simp [bubble_up]
  | cons b t ih => intro a; rw [bubble_up]; split <;> simp [ih]

theorem bubble_up_le : ∀ (rest : List ℚ) (a : ℚ), a ≤ (bubble_up a rest).2 := by
  intro rest
  induction rest with
  | nil => intro a; simp [bubble_up]
  | cons b t ih =>
    intro a
    rw [bubble_up]
    split
    · exact ih a
    · next h => exact le_trans (le_of_not_lt h) (ih b)

theorem bubble_up_fst_le : ∀ (rest : List ℚ) (a : ℚ),
    ∀ x ∈ (bubble_up a rest).1, x ≤ (bubble_up a rest).2 := by
  intro rest
  induction rest with
  | nil => intro a x hx; simp [bubble_up] at hx
  | cons b t ih =>
    intro a x hx
    rw [bubble_up] at hx ⊢
    by_cases h : b < a
    · simp only [if_pos h, List.mem_cons] at hx ⊢
      rcases hx with rfl | hx
      · exact le_trans (le_of_lt h) (bubble_up_le t a)
      · exact ih a x hx
    · simp only [if_neg h, List.mem_cons] at hx ⊢
      rcases hx with rfl | hx
      · exact le_trans (le_of_not_lt h) (bubble_up_le t b)
      · exact ih b x hx

theorem bubble_up_perm : ∀ (rest : List ℚ) (a : ℚ),
    List.Perm (a :: rest) ((bubble_up a rest).1 ++ [(bubble_up a rest).2]) := by
  intro rest
  induction rest with
  | nil => intro a; simp [bubble_up]
  | cons b t ih =>
    intro a
    rw [bubble_up]
    by_cases h : b < a
    · simp only [if_pos h]
      exact (List.Perm.swap b a t).trans ((ih a).cons b)
    · simp only [if_neg h]
      exact (ih b).cons a

theorem bubble_stage_full : ∀ (rest : List ℚ) (a : ℚ),
    bubble_stage rest.length (a :: rest)
      = (bubble_up a rest).1 ++ [(bubble_up a rest).2] := by
  intro rest
  induction rest with
  | nil => intro a; simp [bubble_stage, bubble_up]
  | cons b t ih =>
    intro a
    show bubble_stage (t.length + 1) (a :: b :: t) = _
    rw [bubble_stage, bubble_up]
    by_cases h : b < a <;> simp [h, ih]

theorem bubble_stage_append : ∀ (k : ℕ) (p s : List ℚ), k + 1 ≤ p.length →
    bubble_stage k (p ++ s) = bubble_stage k p ++ s := by
  intro k
  induction k with
  | zero => intro p s _; simp [bubble_stage]
  | succ k ih =>
    intro p s h
    cases p with
    | nil => simp at h
    | cons a q =>
      cases q with
      | nil => simp at h
      | cons b t =>
        show bubble_stage (k + 1) (a :: b :: (t ++ s)) = _
        rw [bubble_stage, bubble_stage]
        have ht : k + 1 ≤ (a :: t).length := by
          simp only [List.length_cons] at h ⊢; omega
        by_cases hba : b < a
        · simp only [if_pos hba]
          rw [show a :: (t ++ s) = (a :: t) ++ s from rfl, ih (a :: t) s ht]
          simp
        · simp only [if_neg hba]
          rw [show b :: (t ++ s) = (b :: t) ++ s from rfl,
            ih (b :: t) s (by simpa using ht)]
          simp

theorem bubble_outer_append : ∀ (k : ℕ) (p s : List ℚ), k + 1 ≤ p.length →
    bubble_outer k (p ++ s) = bubble_outer k p ++ s := by
  intro k
  induction k with
  | zero => intro p s _; simp [bubble_outer]
  | succ k ih =>
    intro p s h
    rw [bubble_outer, bubble_outer, bubble_stage_append (k + 1) p s h]
    apply ih
    rw [(bubble_stage_perm (k + 1) p).length_eq]
    omega

theorem bubble_sort_cons (a : ℚ) (rest : List ℚ) :
    bubble_sort (a :: rest)
      = bubble_sort (bubble_up a rest).1 ++ [(bubble_up a rest).2] := by
  cases rest with
  | nil => simp [bubble_sort, bubble_outer, bubble_up]
  | cons b t =>
    have h1 : bubble_sort (a :: b :: t)
        = bubble_outer (t.length + 1) (a :: b :: t) := by
      simp [bubble_sort]
    have h2 : (bubble_up a (b :: t)).1.length = t.length + 1 := by
      rw [bubble_up_fst_length]; simp
    rw [h1, bubble_outer, show (t.length + 1) = (b :: t).length from by simp,
      bubble_stage_full (b :: t) a,
      bubble_outer_append t.length _ _ (by omega)]
    congr 1
    simp [bubble_sort, h2]

theorem bubble_sort_sorted : ∀ (l : List ℚ), List.Sorted (· ≤ ·) (bubble_sort l) := by
  have main : ∀ (n : ℕ) (l : List ℚ), l.length = n →
      List.Sorted (· ≤ ·) (bubble_sort l) := by
    intro n
    induction n using Nat.strong_induction_on with
    | _ n ih =>
    intro l hn
    cases l with
    | nil => simp [bubble_sort, bubble_outer]
    | cons a rest =>
      rw [bubble_sort_cons]
      have hlen : (bubble_up a rest).1.length = rest.length :=
        bubble_up_fst_length rest a
      have hsort : List.Sorted (· ≤ ·) (bubble_sort (bubble_up a rest).1) := by
        refine ih rest.length ?_ _ hlen
        simp at hn; omega
      refine List.pairwise_append.mpr ⟨hsort, List.sorted_singleton _, ?_⟩
      intro x hx y hy
      rw [List.mem_singleton] at hy
      subst hy
      exact bubble_up_fst_le rest a x ((bubble_sort_perm _).mem_iff.1 hx)
  intro l
  exact main l.length l rfl

theorem bubble_sort_eq_of_perm {l₁ l₂ : List ℚ} (h : List.Perm l₁ l₂) :
    bubble_sort l₁ = bubble_sort l₂ :=
  List.eq_of_perm_of_sorted
    ((bubble_sort_perm l₁).trans (h.trans (bubble_sort_perm l₂).symm))
    (bubble_sort_sorted l₁) (bubble_sort_sorted l₂)

theorem bubble_sort_of_sorted {l : List ℚ} (h : List.Sorted (· ≤ ·) l) :
    bubble_sort l = l :=
  List.eq_of_perm_of_sorted (bubble_sort_perm l) (bubble_sort_sorted l) h

/-! ### Working-state and rejection-scan lemmas -/

theorem valid_values_cons (e : glbs_data_t) (l : List glbs_data_t) :
    valid_values (e :: l)
      = if e.valid = true then e.value :: valid_values l else valid_values l := by
  by_cases h : e.valid = true <;> simp [valid_values, List.filter_cons, h]

theorem valid_values_map_true (l : List ℚ) :
    valid_values (l.map fun v => ⟨v, true⟩) = l := by
  induction l with
  | nil => rfl
  | cons a t ih => simpa [valid_values_cons] using ih

theorem valid_values_sublist (l : List glbs_data_t) :
    List.Sublist (valid_values l) (l.map fun e => e.value) :=
  (List.filter_sublist l).map _

theorem left_num_init (l : List ℚ) :
    left_num (l.map fun v => ⟨v, true⟩) = l.length := by
  rw [left_num, valid_values_map_true]

theorem mark_some_values {crit avgv varv : ℚ} : ∀ {l l' : List glbs_data_t},
    mark_first_outlier crit avgv varv l = some l' →
    l'.map (fun e => e.value) = l.map fun e => e.value := by
  intro l
  induction l with
  | nil => intro l' h; simp [mark_first_outlier] at h
  | cons e rest ih =>
    intro l' h
    rw [mark_first_outlier] at h
    split at h
    · simp only [Option.some.injEq] at h
      subst h
      simp
    · obtain ⟨t, ht, rfl⟩ := Option.map_eq_some'.mp h
      simp [ih ht]

theorem mark_some_left_num {crit avgv varv : ℚ} : ∀ {l l' : List glbs_data_t},
    mark_first_outlier crit avgv varv l = some l' →
    left_num l = left_num l' + 1 := by
  intro l
  induction l with
  | nil => intro l' h; simp [mark_first_outlier] at h
  | cons e rest ih =>
    intro l' h
    rw [mark_first_outlier] at h
    split at h
    · next hcond =>
      simp only [Option.some.injEq] at h
      subst h
      simp [left_num, valid_values_cons, hcond.1]
    · obtain ⟨t, ht, rfl⟩ := Option.map_eq_some'.mp h
      have := ih ht
      by_cases hv : e.valid = true <;>
        simp [left_num, valid_values_cons, hv] at this ⊢ <;> omega

theorem mark_none_iff {crit avgv varv : ℚ} : ∀ {l : List glbs_data_t},
    mark_first_outlier crit avgv varv l = none ↔
      ∀ x ∈ valid_values l, ¬ g_exceeds crit avgv varv x := by
  intro l
  induction l with
  | nil => simp [mark_first_outlier, valid_values]
  | cons e rest ih =>
    rw [mark_first_outlier]
    split
    · next hcond =>
      exact iff_of_false (by simp)
        fun hall => hall e.value
          (by rw [valid_values_cons, if_pos hcond.1]; exact List.mem_cons_self _ _)
          hcond.2
    · next hcond =>
      rw [Option.map_eq_none', ih]
      by_cases hv : e.valid = true
      · have hne : ¬ g_exceeds crit avgv varv e.value := fun hg => hcond ⟨hv, hg⟩
        constructor
        · intro hall x hx
          rw [valid_values_cons, if_pos hv, List.mem_cons] at hx
          rcases hx with rfl | hx
          · exact hne
          · exact hall x hx
        · intro hall x hx
          exact hall x
            (by rw [valid_values_cons, if_pos hv]; exact List.mem_cons_of_mem _ hx)
      · constructor
        · intro hall x hx
          rw [valid_values_cons, if_neg hv] at hx
          exact hall x hx
        · intro hall x hx
          exact hall x (by rw [valid_values_cons, if_neg hv]; exact hx)

theorem glbs_scan_none_iff (mode : gpn_mode) (s : List glbs_data_t) :
    glbs_scan mode s = none ↔
      ∀ x ∈ valid_values s, ¬ g_exceeds (gpn_crit mode (left_num s))
        (sum_valid s / (left_num s : ℚ))
        (sq_dev_sum s (sum_valid s / (left_num s : ℚ)) / ((left_num s : ℚ) - 1))
        x :=
  mark_none_iff

theorem glbs_scan_some_left {mode : gpn_mode} {s s2 : List glbs_data_t}
    (h : glbs_scan mode s = some s2) : left_num s = left_num s2 + 1 :=
  mark_some_left_num h

theorem glbs_scan_some_values {mode : gpn_mode} {s s2 : List glbs_data_t}
    (h : glbs_scan mode s = some s2) :
    s2.map (fun e => e.value) = s.map fun e => e.value :=
  mark_some_values h

theorem glbs_scan_none_congr {s₁ s₂ : List glbs_data_t} (mode : gpn_mode)
    (h : valid_values s₁ = valid_values s₂) (h1 : glbs_scan mode s₁ = none) :
    glbs_scan mode s₂ = none := by
  rw [glbs_scan_none_iff] at h1 ⊢
  have hl : left_num s₂ = left_num s₁ := by rw [left_num, left_num, h]
  have hs : sum_valid s₂ = sum_valid s₁ := by rw [sum_valid, sum_valid, h]
  have hq : ∀ a, sq_dev_sum s₂ a = sq_dev_sum s₁ a := by
    intro a; rw [sq_dev_sum, sq_dev_sum, h]
  rw [hl, hs, hq, ← h]
  exact h1

/-! ### Rejection-loop lemmas -/

theorem glbs_iter_stop {mode : gpn_mode} {s : List glbs_data_t} (fuel : ℕ)
    (h : left_num s < MIN_SAMPLE_NUM) : glbs_iter mode fuel s = s := by
  cases fuel with
  | zero => rfl
  | succ f => rw [glbs_iter, if_pos h]

theorem glbs_iter_of_scan_none {mode : gpn_mode} {s : List glbs_data_t}
    (fuel : ℕ) (h : glbs_scan mode s = none) : glbs_iter mode fuel s = s := by
  cases fuel with
  | zero => rfl
  | succ f => simp [glbs_iter, h]

theorem glbs_iter_left_le (mode : gpn_mode) : ∀ (fuel : ℕ) (s : List glbs_data_t),
    left_num (glbs_iter mode fuel s) ≤ left_num s := by
  intro fuel
  induction fuel with
  | zero => intro s; exact le_rfl
  | succ f ih =>
    intro s
    rw [glbs_iter]
    split
    · exact le_rfl
    · cases hscan : glbs_scan mode s with
      | none => simp [hscan]
      | some s2 =>
        simp only [hscan]
        have h1 := glbs_scan_some_left hscan
        have h2 := ih s2
        omega

theorem glbs_iter_left_lb (mode : gpn_mode) : ∀ (fuel : ℕ) (s : List glbs_data_t),
    MIN_SAMPLE_NUM - 1 ≤ left_num s →
    MIN_SAMPLE_NUM - 1 ≤ left_num (glbs_iter mode fuel s) := by
  intro fuel
  induction fuel with
  | zero => intro s h; exact h
  | succ f ih =>
    intro s h
    rw [glbs_iter]
    split
    · exact h
    · next hge =>
      cases hscan : glbs_scan mode s with
      | none => simpa [hscan] using h
      | some s2 =>
        simp only [hscan]
        apply ih
        have h1 := glbs_scan_some_left hscan
        simp only [MIN_SAMPLE_NUM, not_lt] at hge ⊢
        omega

theorem glbs_iter_fixpoint (mode : gpn_mode) : ∀ (fuel : ℕ) (s : List glbs_data_t),
    left_num s ≤ fuel →
    left_num (glbs_iter mode fuel s) < MIN_SAMPLE_NUM ∨
      glbs_scan mode (glbs_iter mode fuel s) = none := by
  intro fuel
  induction fuel with
  | zero =>
    intro s h
    left
    have h0 : left_num s = 0 := Nat.le_zero.mp h
    simp [glbs_iter, h0, MIN_SAMPLE_NUM]
  | succ f ih =>
    intro s h
    rw [glbs_iter]
    split
    · next hlt => exact Or.inl hlt
    · next hge =>
      cases hscan : glbs_scan mode s with
      | none => simp [hscan]
      | some s2 =>
        simp only [hscan]
        apply ih
        have h1 := glbs_scan_some_left hscan
        omega

theorem glbs_iter_values (mode : gpn_mode) : ∀ (fuel : ℕ) (s : List glbs_data_t),
    (glbs_iter mode fuel s).map (fun e => e.value) = s.map fun e => e.value := by
  intro fuel
  induction fuel with
  | zero => intro s; rfl
  | succ f ih =>
    intro s
    rw [glbs_iter]
    split
    · rfl
    · cases hscan : glbs_scan mode s with
      | none => simp [hscan]
      | some s2 =>
        simp only [hscan]
        rw [ih s2, glbs_scan_some_values hscan]

theorem reject_loop_fixpoint (mode : gpn_mode) (s : List glbs_data_t) :
    left_num (reject_loop mode s) < MIN_SAMPLE_NUM ∨
      glbs_scan mode (reject_loop mode s) = none :=
  glbs_iter_fixpoint mode (left_num s) s le_rfl

/-! ### Finalization helper -/

theorem glbs_process_of_valid (samples : List ℚ) (mode : gpn_mode)
    (h3 : MIN_SAMPLE_NUM ≤ samples.length)
    (h20 : samples.length ≤ MAX_SAMPLE_NUM) :
    glbs_process samples mode
      = some (if 0 < left_num (glbs_final_state samples mode) then
          sum_valid (glbs_final_state samples mode)
            / (left_num (glbs_final_state samples mode) : ℚ)
        else 0) := by
  unfold glbs_process
  rw [if_neg]
  simp only [not_or, not_lt]
  exact ⟨h3, h20⟩

theorem left_num_glbs_init (samples : List ℚ) :
    left_num (glbs_init_state samples) = samples.length := by
  rw [glbs_init_state, left_num_init, (bubble_sort_perm samples).length_eq]

theorem glbs_final_left_lb (samples : List ℚ) (mode : gpn_mode)
    (h3 : MIN_SAMPLE_NUM ≤ samples.length) :
    MIN_SAMPLE_NUM - 1 ≤ left_num (glbs_final_state samples mode) := by
  rw [glbs_final_state, reject_loop]
  apply glbs_iter_left_lb
  rw [left_num_glbs_init]
  exact le_trans (Nat.sub_le _ _) h3

theorem glbs_final_left_ub (samples : List ℚ) (mode : gpn_mode) :
    left_num (glbs_final_state samples mode) ≤ samples.length := by
  rw [glbs_final_state, reject_loop]
  calc left_num (glbs_iter mode (left_num (glbs_init_state samples))
          (glbs_init_state samples))
      ≤ left_num (glbs_init_state samples) := glbs_iter_left_le _ _ _
    _ = samples.length := left_num_glbs_init samples

/-! ### Claim theorems -/

/-- C2: `glbs_process` succeeds (returns `some`) exactly when the sample
count lies in `[MIN_SAMPLE_NUM, MAX_SAMPLE_NUM] = [3, 20]`; outside that
range it returns `none`, which models `return false` with no further
computation performed and the caller's result location left unwritten. -/
theorem glbs_length_validation (samples : List ℚ) (mode : gpn_mode) :
    glbs_process samples mode = none ↔
      samples.length < MIN_SAMPLE_NUM ∨ MAX_SAMPLE_NUM < samples.length := by
  unfold glbs_process
  split
  · next h => exact iff_of_true rfl h
  · next h => exact iff_of_false (by simp) h

/-- C3: the rejection loop never operates below the `MIN_SAMPLE_NUM` floor:
(1) from any state with fewer than `MIN_SAMPLE_NUM` valid entries the loop
returns immediately without invalidating anything — even if some remaining
entry exceeds the critical value — and (2) starting from at least
`MIN_SAMPLE_NUM` valid entries, the loop never ends with fewer than
`MIN_SAMPLE_NUM - 1` valid entries (rejection only ever fires from a state
with at least `MIN_SAMPLE_NUM` valid entries, removing exactly one). -/
theorem glbs_rejection_floor (mode : gpn_mode) (s : List glbs_data_t) :
    (left_num s < MIN_SAMPLE_NUM → reject_loop mode s = s) ∧
    (MIN_SAMPLE_NUM ≤ left_num s →
      MIN_SAMPLE_NUM - 1 ≤ left_num (reject_loop mode s)) := by
  constructor
  · intro h
    exact glbs_iter_stop _ h
  · intro h
    exact glbs_iter_left_lb mode _ s (le_trans (Nat.sub_le _ _) h)

/-- Witness for `glbs_rejection_floor` at concrete states: a two-entry state
is returned unchanged, and a three-entry state keeps at least two valid
entries. -/
theorem glbs_rejection_floor_witness :
    reject_loop GPN_95 ex_state2 = ex_state2 ∧
    MIN_SAMPLE_NUM - 1 ≤ left_num (reject_loop GPN_95 ex_state3) :=
  ⟨(glbs_rejection_floor GPN_95 ex_state2).1 (by decide),
   (glbs_rejection_floor GPN_95 ex_state3).2 (by decide)⟩

/-- C9: the rejection loop is a bounded deterministic computation: every
scan that continues the loop invalidates exactly one entry
(`left_num` drops by exactly 1), and for any valid input at most 18 entries
are ever invalidated in total. -/
theorem glbs_termination_bound (samples : List ℚ) (mode : gpn_mode) :
    (MIN_SAMPLE_NUM ≤ samples.length → samples.length ≤ MAX_SAMPLE_NUM →
      rejected_count samples mode ≤ 18) ∧
    (∀ s s2 : List glbs_data_t, glbs_scan mode s = some s2 →
      left_num s = left_num s2 + 1) := by
  constructor
  · intro h3 h20
    rw [rejected_count]
    have hfin := glbs_final_left_lb samples mode h3
    simp only [MIN_SAMPLE_NUM, MAX_SAMPLE_NUM] at h3 h20 hfin
    omega
  · intro s s2 h
    exact glbs_scan_some_left h

/-- Witness for `glbs_termination_bound`: the concrete spec scenario rejects
at most 18 points, and a concrete firing scan drops `left_num` by one. -/
theorem glbs_termination_bound_witness :
    rejected_count c5_input GPN_95 ≤ 18 ∧
    left_num scan_ex_pre = left_num scan_ex_post + 1 :=
  ⟨(glbs_termination_bound c5_input GPN_95).1 (by decide) (by decide),
   (glbs_termination_bound c5_input GPN_95).2 scan_ex_pre scan_ex_post (by
    norm_num [glbs_scan, scan_ex_pre, scan_ex_post, mark_first_outlier,
      g_exceeds, valid_values, left_num, sum_valid, sq_dev_sum, gpn_crit,
      gpn_data])⟩

/-- C10: for every valid input, at least `MIN_SAMPLE_NUM - 1 = 2` working
entries are still valid at finalization, so the `left_num == 0` fallback
branch returning `0.0` is unreachable and the unguarded division
`sum / left_num` in the duplicate copy of the source never divides by zero:
the returned value is always the guarded quotient. -/
theorem glbs_final_state_nonempty (samples : List ℚ) (mode : gpn_mode)
    (h3 : MIN_SAMPLE_NUM ≤ samples.length)
    (h20 : samples.length ≤ MAX_SAMPLE_NUM) :
    MIN_SAMPLE_NUM - 1 ≤ left_num (glbs_final_state samples mode) ∧
    glbs_process samples mode
      = some (sum_valid (glbs_final_state samples mode)
          / (left_num (glbs_final_state samples mode) : ℚ)) := by
  have hfin := glbs_final_left_lb samples mode h3
  refine ⟨hfin, ?_⟩
  rw [glbs_process_of_valid samples mode h3 h20, if_pos]
  simp only [MIN_SAMPLE_NUM] at hfin
  omega

/-- Witness for `glbs_final_state_nonempty` at the concrete spec scenario. -/
theorem glbs_final_state_nonempty_witness :
    MIN_SAMPLE_NUM - 1 ≤ left_num (glbs_final_state c5_input GPN_95) ∧
    glbs_process c5_input GPN_95
      = some (sum_valid (glbs_final_state c5_input GPN_95)
          / (left_num (glbs_final_state c5_input GPN_95) : ℚ)) :=
  glbs_final_state_nonempty c5_input GPN_95 (by decide) (by decide)

/-- C1 (counterexample): with the code's lookup `gpn_data[mode][n - 1]`, the
table entries actually used for `n = 3` and `n = 4` are NOT equal to the
entry used for `n = 5` (at 99% they are 1.155, 1.492 and 1.749
respectively), refuting the claim that the n=3 and n=4 columns equal the
n=5 value. -/
theorem gpn_crit_small_n_cex :
    gpn_crit GPN_99 4 ≠ gpn_crit GPN_99 5 ∧
    gpn_crit GPN_99 3 ≠ gpn_crit GPN_99 5 := by
  constructor <;> norm_num [gpn_crit, gpn_data]

/-- C1 (amended): in every row the duplicated triple of equal entries sits at
column indices 0, 1, 2 — i.e. the entries that the `left_num - 1` lookup
would use for the never-occurring counts `n = 1` and `n = 2` equal the entry
used for `n = MIN_SAMPLE_NUM = 3` — while the entries actually used for
`n = 3`, `n = 4` and `n = 5` are pairwise distinct standard values. -/
theorem gpn_table_small_n (mode : gpn_mode) :
    (gpn_data mode).getD 0 0 = gpn_crit mode 3 ∧
    (gpn_data mode).getD 1 0 = gpn_crit mode 3 ∧
    gpn_crit mode 3 ≠ gpn_crit mode 4 ∧
    gpn_crit mode 4 ≠ gpn_crit mode 5 ∧
    gpn_crit mode 3 ≠ gpn_crit mode 5 := by
  cases mode <;> refine ⟨?_, ?_, ?_, ?_, ?_⟩ <;> norm_num [gpn_crit, gpn_data]

/-- C4: for any `n` identical values (`3 ≤ n ≤ 20`) and any confidence level,
`glbs_process` rejects no entry (`rejected_count = 0`) and returns the common
value: with exact arithmetic the variance is zero and every squared Grubbs
test `crit^2 * 0 < (v - v)^2` is false (matching the C code, where the `0/0`
NaN statistic compares false against the critical value), so the scan finds
no outlier, the rejection loop leaves the working state untouched, and the
mean `n*v/n = v` is returned. -/
theorem glbs_identical_values (n : ℕ) (v : ℚ) (mode : gpn_mode)
    (h3 : MIN_SAMPLE_NUM ≤ n) (h20 : n ≤ MAX_SAMPLE_NUM) :
    rejected_count (List.replicate n v) mode = 0 ∧
    glbs_process (List.replicate n v) mode = some v := by
  have hlen : (List.replicate n v).length = n := List.length_replicate n v
  have hnz : n ≠ 0 := by
    simp only [MIN_SAMPLE_NUM] at h3; omega
  have hn0 : (n : ℚ) ≠ 0 := Nat.cast_ne_zero.mpr hnz
  have hsorted : bubble_sort (List.replicate n v) = List.replicate n v :=
    bubble_sort_of_sorted (List.pairwise_replicate.mpr (Or.inr le_rfl))
  have hinit : glbs_init_state (List.replicate n v)
      = List.replicate n ⟨v, true⟩ := by
    rw [glbs_init_state, hsorted, List.map_replicate]
  have hvv : valid_values (List.replicate n (⟨v, true⟩ : glbs_data_t))
      = List.replicate n v := by
    have h := valid_values_map_true (List.replicate n v)
    rwa [List.map_replicate] at h
  have hleft : left_num (List.replicate n (⟨v, true⟩ : glbs_data_t)) = n := by
    rw [left_num, hvv, List.length_replicate]
  have hsum : sum_valid (List.replicate n (⟨v, true⟩ : glbs_data_t))
      = n * v := by
    rw [sum_valid, hvv, List.sum_replicate, nsmul_eq_mul]
  have havg : sum_valid (List.replicate n (⟨v, true⟩ : glbs_data_t))
      / ((left_num (List.replicate n (⟨v, true⟩ : glbs_data_t))) : ℚ) = v := by
    rw [hsum, hleft]
    exact mul_div_cancel_left₀ v hn0
  have hscan : glbs_scan mode (List.replicate n ⟨v, true⟩) = none := by
    rw [glbs_scan_none_iff]
    intro x hx
    rw [hvv] at hx
    have hxv : x = v := List.eq_of_mem_replicate hx
    subst hxv
    rw [havg, sq_dev_sum, hvv]
    simp [g_exceeds]
  have hloop : reject_loop mode (List.replicate n ⟨v, true⟩)
      = List.replicate n ⟨v, true⟩ :=
    glbs_iter_of_scan_none _ hscan
  constructor
  · rw [rejected_count, glbs_final_state, hinit, hloop, hleft, hlen]
    omega
  · rw [glbs_process_of_valid (List.replicate n v) mode (by rw [hlen]; exact h3)
      (by rw [hlen]; exact h20), glbs_final_state, hinit, hloop, hleft,
      if_pos (Nat.pos_of_ne_zero hnz)]
    rw [hleft] at havg
    rw [havg]

/-- Witness for `glbs_identical_values`: three copies of `5` reject nothing
and give back `5`. -/
theorem glbs_identical_values_witness :
    rejected_count (List.replicate 3 (5 : ℚ)) GPN_95 = 0 ∧
    glbs_process (List.replicate 3 (5 : ℚ)) GPN_95 = some 5 :=
  glbs_identical_values 3 5 GPN_95 (by decide) (by decide)

/-- C6: `glbs_process` is permutation invariant — two inputs that are
permutations of each other give literally the same result (the internal sort
makes everything downstream depend only on the multiset of values). -/
theorem glbs_perm_invariant (l₁ l₂ : List ℚ) (mode : gpn_mode)
    (h : List.Perm l₁ l₂) : glbs_process l₁ mode = glbs_process l₂ mode := by
  unfold glbs_process glbs_final_state reject_loop glbs_init_state
  rw [h.length_eq, bubble_sort_eq_of_perm h]

/-- Witness for `glbs_perm_invariant` on a concrete reordered pair. -/
theorem glbs_perm_invariant_witness :
    glbs_process [1, 2, 5] GPN_80 = glbs_process [5, 1, 2] GPN_80 :=
  glbs_perm_invariant [1, 2, 5] [5, 1, 2] GPN_80
    (List.perm_append_singleton 5 [1, 2])

/-- C5 (counterexample): on `{8.2, 5.4, 5.0, 5.2, 15.1, 5.3, 5.5, 6.0}` at
95% confidence the code rejects TWO values, not exactly one: after 15.1 is
removed, 8.2 exceeds the critical value of the tightened 7-point set
(G = 2.4/1.103… ≈ 2.176 > 1.938) and is removed as well, so the returned
average is 27/5 = 5.4, not the mean of seven remaining values (≈ 5.8, and
not the claimed ≈ 5.943). -/
theorem glbs_c5_cex :
    rejected_count c5_input GPN_95 = 2 ∧
    glbs_process c5_input GPN_95 = some (27 / 5) := by
  constructor <;>
    norm_num [c5_input, rejected_count, glbs_process, glbs_final_state,
      reject_loop, glbs_init_state, bubble_sort, bubble_outer, bubble_stage,
      glbs_iter, glbs_scan, mark_first_outlier, g_exceeds, valid_values,
      left_num, sum_valid, sq_dev_sum, gpn_crit, gpn_data, MIN_SAMPLE_NUM,
      MAX_SAMPLE_NUM]

/-- C5 (amended): on `{8.2, 5.4, 5.0, 5.2, 15.1, 5.3, 5.5, 6.0}` at 95%
confidence, `glbs_process` rejects exactly the values 15.1 and 8.2 and
returns the mean of the remaining six values, exactly 5.4. -/
theorem glbs_c5_run :
    glbs_survivors c5_input GPN_95 = [5, 5.2, 5.3, 5.4, 5.5, 6] ∧
    glbs_process c5_input GPN_95 = some 5.4 := by
  constructor <;>
    norm_num [c5_input, glbs_survivors, glbs_process, glbs_final_state,
      reject_loop, glbs_init_state, bubble_sort, bubble_outer, bubble_stage,
      glbs_iter, glbs_scan, mark_first_outlier, g_exceeds, valid_values,
      left_num, sum_valid, sq_dev_sum, gpn_crit, gpn_data, MIN_SAMPLE_NUM,
      MAX_SAMPLE_NUM]

/-- C7: the cleaned output set is a fixed point of the filter — running
`glbs_process` on the surviving values (same confidence, at least
`MIN_SAMPLE_NUM` survivors) rejects nothing further and returns the same
average.  The survivors are already sorted (rejection preserves the sorted
value order), their working state has the same valid view as the final state
of the first run, and that state's scan found no outlier. -/
theorem glbs_idempotent (samples : List ℚ) (mode : gpn_mode)
    (h3 : MIN_SAMPLE_NUM ≤ samples.length)
    (h20 : samples.length ≤ MAX_SAMPLE_NUM)
    (hs : MIN_SAMPLE_NUM ≤ (glbs_survivors samples mode).length) :
    rejected_count (glbs_survivors samples mode) mode = 0 ∧
    glbs_process (glbs_survivors samples mode) mode
      = glbs_process samples mode := by
  have hlenS : (glbs_survivors samples mode).length
      = left_num (glbs_final_state samples mode) := rfl
  have hvals : (glbs_final_state samples mode).map (fun e => e.value)
      = bubble_sort samples := by
    rw [glbs_final_state, reject_loop, glbs_iter_values, glbs_init_state,
      List.map_map]
    simp [Function.comp_def]
  have hsortedS : List.Sorted (· ≤ ·) (glbs_survivors samples mode) := by
    have hsub := valid_values_sublist (glbs_final_state samples mode)
    rw [hvals] at hsub
    exact List.Pairwise.sublist hsub (bubble_sort_sorted samples)
  have hscanfin : glbs_scan mode (glbs_final_state samples mode) = none := by
    rcases reject_loop_fixpoint mode (glbs_init_state samples) with hlt | hnone
    · rw [hlenS] at hs
      rw [glbs_final_state] at hs
      omega
    · exact hnone
  have hinit2 : glbs_init_state (glbs_survivors samples mode)
      = (glbs_survivors samples mode).map fun v => ⟨v, true⟩ := by
    rw [glbs_init_state, bubble_sort_of_sorted hsortedS]
  have hvv2 : valid_values (glbs_init_state (glbs_survivors samples mode))
      = valid_values (glbs_final_state samples mode) := by
    rw [hinit2, valid_values_map_true]
    rfl
  have hscan2 : glbs_scan mode (glbs_init_state (glbs_survivors samples mode))
      = none :=
    glbs_scan_none_congr mode hvv2.symm hscanfin
  have hloop2 : glbs_final_state (glbs_survivors samples mode) mode
      = glbs_init_state (glbs_survivors samples mode) := by
    rw [glbs_final_state, reject_loop]
    exact glbs_iter_of_scan_none _ hscan2
  have hleft2 : left_num (glbs_init_state (glbs_survivors samples mode))
      = (glbs_survivors samples mode).length := by
    rw [left_num, hvv2]
    exact hlenS.symm
  have hlen20 : (glbs_survivors samples mode).length ≤ MAX_SAMPLE_NUM :=
    hlenS ▸ le_trans (glbs_final_left_ub samples mode) h20
  constructor
  · rw [rejected_count, hloop2, hleft2]
    omega
  · rw [glbs_process_of_valid _ mode hs hlen20,
      glbs_process_of_valid samples mode h3 h20, hloop2]
    have hsum2 : sum_valid (glbs_init_state (glbs_survivors samples mode))
        = sum_valid (glbs_final_state samples mode) := by
      rw [sum_valid, sum_valid, hvv2]
    have hleq : left_num (glbs_init_state (glbs_survivors samples mode))
        = left_num (glbs_final_state samples mode) := by
      rw [left_num, left_num, hvv2]
    rw [hsum2, hleq]

/-- Witness for `glbs_idempotent` at the concrete spec scenario (six
survivors after two rejections). -/
theorem glbs_idempotent_witness :
    rejected_count (glbs_survivors c5_input GPN_95) GPN_95 = 0 ∧
    glbs_process (glbs_survivors c5_input GPN_95) GPN_95
      = glbs_process c5_input GPN_95 :=
  glbs_idempotent c5_input GPN_95 (by decide) (by decide) (by
    norm_num [c5_input, glbs_survivors, glbs_final_state, reject_loop,
      glbs_init_state, bubble_sort, bubble_outer, bubble_stage, glbs_iter,
      glbs_scan, mark_first_outlier, g_exceeds, valid_values, left_num,
      sum_valid, sq_dev_sum, gpn_crit, gpn_data, MIN_SAMPLE_NUM,
      MAX_SAMPLE_NUM])
